import Mathlib

/-!
Verification development for the PlayPalace game-interaction engine.

The definitions below are a shallow embedding of the engine found in
`server/games/base.py` (action model, event dispatcher, pending-input
suspension, keybind matching, turn pointer) and of the Yahtzee bot policy
in `server/games/yahtzee/bot.py`.  Python dicts are embedded as
association lists, sets as lists of ids, and the dynamically-looked-up
game-rules collaborator (handler methods, predicates, options providers)
as a record of partial functions.  Effects on the user/session
collaborator (speech, menus, menu rebuilds) are recorded as an explicit
trace.  Exceptions raised by a handler are modelled by an optional error
value carried alongside the state (Python mutates in place, so partial
mutations survive a raise).
-/

namespace PlayPalace

/-- Association-list lookup, first matching key wins (embeds Python
`dict.get`). -/
def lookupA {α : Type} (k : String) : List (String × α) → Option α
  | [] => none
  | (k', v) :: rest => if k' = k then some v else lookupA k rest

/-- Remove a key from an association list (embeds `del d[k]` /
`d.pop(k, None)`). -/
def eraseA {α : Type} (k : String) (l : List (String × α)) : List (String × α) :=
  l.filter (fun kv => kv.1 ≠ k)

/-- Insert or overwrite a key in an association list (embeds
`d[k] = v`; ordering of unrelated keys is irrelevant to lookup). -/
def insertA {α : Type} (k : String) (v : α) (l : List (String × α)) : List (String × α) :=
  (k, v) :: eraseA k l

@[simp] theorem lookupA_insertA {α : Type} (k : String) (v : α) (l : List (String × α)) :
    lookupA k (insertA k v l) = some v := by
  simp [insertA, lookupA]

theorem lookupA_eraseA {α : Type} (k : String) (l : List (String × α)) :
    lookupA k (eraseA k l) = none := by
  induction l with
  | nil => rfl
  | cons kv rest ih =>
    by_cases h : kv.1 = k
    · simpa [eraseA, h] using ih
    · simpa [eraseA, lookupA, h] using ih

/-- ASCII lower-casing of one character (the key strings handled by the
dispatcher are ASCII). -/
def lowerChar (c : Char) : Char :=
  if 65 ≤ c.toNat ∧ c.toNat ≤ 90 then Char.ofNat (c.toNat + 32) else c

/-- Python `str.lower()` on ASCII key strings. -/
def pyLower (s : String) : String := ⟨s.data.map lowerChar⟩

/-- Python `str.startswith(pre)`. -/
def pyStartsWith (s pre : String) : Bool := pre.data.isPrefixOf s.data

/-- `Action` record (fields as used throughout `base.py`; the class body
itself lives in the `game_utils.actions` module).  Handler, predicate and
label-resolver references are method-name strings. -/
structure MenuInputReq where
  options : String
  bot_select : Option String := none
deriving Repr, DecidableEq

structure EditboxInputReq where
  prompt : String
  default : String
  bot_input : Option String := none
deriving Repr, DecidableEq

inductive InputRequest
  | menuInput (req : MenuInputReq)
  | editboxInput (req : EditboxInputReq)
deriving Repr, DecidableEq

structure Action where
  id : String
  label : String
  handler : String
  is_enabled : Option String := none
  is_hidden : Option String := none
  get_label : Option String := none
  input_request : Option InputRequest := none
deriving Repr, DecidableEq

/-- Modelled from the spec: `ActionSet` is a named, ordered sequence of
Actions scoped to one player, with lookup by id (`game_utils.actions`
is not part of the provided sources). -/
structure ActionSet where
  name : String
  actions : List Action
deriving Repr, DecidableEq

/-- Modelled from the spec: `ActionSet.get_action` returns the first
action in the set with the given id. -/
def ActionSet.getAction (s : ActionSet) (actionId : String) : Option Action :=
  s.actions.find? (fun a => a.id = actionId)

/-- Per-evaluation resolved view of an action (`ResolvedAction` in
`game_utils.actions`, fields as used in `base.py`). -/
structure ResolvedAction where
  action : Action
  label : String
  enabled : Bool
  disabled_reason : Option String
  visible : Bool
deriving Repr, DecidableEq

/-- `ActionContext` dataclass from `base.py`. -/
structure ActionContext where
  menu_item_id : Option String := none
  menu_index : Option Int := none
  from_keybind : Bool := false
deriving Repr, DecidableEq

/-- The default `ActionContext()` value. -/
def ActionContext.empty : ActionContext := {}

/-- `Player` dataclass from `base.py` (fields the dispatcher uses). -/
structure Player where
  id : String
  name : String
  is_bot : Bool := false
  is_spectator : Bool := false
deriving Repr, DecidableEq

/-- Keybind applicability state (`KeybindState` in `ui.keybinds`,
values per the spec: never, idle-only, active-only, always). -/
inductive KeybindState
  | never
  | idle
  | active
  | always
deriving Repr, DecidableEq

/-- `Keybind` record (fields as constructed in `define_keybind`). -/
structure Keybind where
  name : String
  default_key : String
  actions : List String
  requires_focus : Bool := false
  state : KeybindState := .always
  players : List String := []
  include_spectators : Bool := false
deriving Repr, DecidableEq

/-- The engine's per-game mutable state: the serialized dataclass fields
plus the runtime-only dictionaries initialised in `__post_init__`.
Dicts are association lists; sets are lists of player ids; `users` lists
the player ids that have an attached user. -/
structure GameState where
  players : List Player := []
  status : String := "waiting"
  turn_index : Int := 0
  turn_player_ids : List String := []
  player_action_sets : List (String × List ActionSet) := []
  keybinds : List (String × List Keybind) := []
  pending_actions : List (String × String) := []
  action_context : List (String × ActionContext) := []
  status_box_open : List String := []
  actions_menu_open : List String := []
  users : List String := []
deriving Repr, DecidableEq

/-- Observable effects on the user/session collaborator. -/
inductive Effect
  | spoke (playerId msg : String)
  | showMenu (playerId menuId : String) (itemIds : List String)
  | showEditbox (playerId inputId prompt default : String)
  | removeMenu (playerId menuId : String)
  | handlerInvoked (playerId actionId : String) (input : Option String)
  | rebuildAllMenus
  | rebuildPlayerMenu (playerId : String)
deriving Repr, DecidableEq

/-- A handler method on the concrete game: receives the player, the
input value (when the calling convention passes one), the action id and
the current state; returns the (possibly partially) mutated state and
an optional raised error. -/
def HandlerFn : Type :=
  Player → Option String → String → GameState → GameState × Option String

/-- The game-rules collaborator: all the methods `base.py` looks up
dynamically by string name (`getattr(self, name, None)`), plus the
behaviour of the collaborating modules absent from the sources.
`resolveInSet` models `ActionSet.resolve_action` (spec §4.1: evaluates
the enablement/visibility predicates and dynamic label); `optionFallback`
models the `MenuOption`-metadata fallback of
`_get_menu_options_for_action` for `set_*` actions. -/
structure GameRules where
  handlers : String → Option HandlerFn
  resolveInSet : ActionSet → Player → Action → GameState → ResolvedAction
  optionsMethod : String → Option (Player → GameState → Option (List String))
  optionFallback : Action → Player → GameState → Option (List String)
  botSelectMethod : String → Option (Player → List String → GameState → Option String)
  botInputMethod : String → Option (Player → GameState → Option String)

/-- Uniform result of a dispatcher entry point: final state, the trace
of collaborator effects, and the error if a handler raised. -/
structure EngineResult where
  st : GameState
  effs : List Effect
  err : Option String
deriving Repr, DecidableEq

/-- `get_action_sets`: the player's ordered action-set list. -/
def getActionSets (st : GameState) (p : Player) : List ActionSet :=
  (lookupA p.id st.player_action_sets).getD []

/-- `find_action`: first action with the id across the player's sets. -/
def findActionInSets : List ActionSet → String → Option Action
  | [], _ => none
  | s :: rest, actionId =>
    match s.getAction actionId with
    | some a => some a
    | none => findActionInSets rest actionId

def findAction (st : GameState) (p : Player) (actionId : String) : Option Action :=
  findActionInSets (getActionSets st p) actionId

/-- `resolve_action` in `base.py`: delegate to the first set that
contains the action, else the defensive enabled/visible default. -/
def resolveAction (rules : GameRules) (st : GameState) (p : Player) (a : Action) :
    ResolvedAction :=
  match (getActionSets st p).find? (fun s => (s.getAction a.id).isSome) with
  | some s => rules.resolveInSet s p a st
  | none => ⟨a, a.label, true, none, true⟩

/-- Whether the player has an attached user (`get_user` truthiness). -/
def userAttached (st : GameState) (p : Player) : Bool :=
  st.users.contains p.id

/-- `user.speak_l(msg)` guarded by `get_user` truthiness. -/
def speakIfUser (st : GameState) (p : Player) (msg : String) : List Effect :=
  if userAttached st p then [.spoke p.id msg] else []

/-- `get_player_by_id`. -/
def getPlayerById (st : GameState) (playerId : String) : Option Player :=
  st.players.find? (fun pl => pl.id = playerId)

/-- `current_player` property getter: index `turn_index mod len` into
`turn_player_ids` (Python `%` on a positive modulus agrees with
`Int.emod`), then resolve the id to a player. -/
def currentPlayer (st : GameState) : Option Player :=
  if st.turn_player_ids.isEmpty then none
  else
    let idx := (st.turn_index % (st.turn_player_ids.length : Int)).toNat
    getPlayerById st (st.turn_player_ids.getD idx "")

/-- `current_player` property setter. -/
def setCurrentPlayer (st : GameState) (pOpt : Option Player) : GameState :=
  match pOpt with
  | none => st
  | some p =>
    if st.turn_player_ids.contains p.id then
      { st with turn_index := (st.turn_player_ids.indexOf p.id : Int) }
    else st

/-- `get_action_context`: the stored context or a default one. -/
def getActionContext (st : GameState) (p : Player) : ActionContext :=
  (lookupA p.id st.action_context).getD ActionContext.empty

/-- `_get_menu_options_for_action`: try the named options method, else
(for `set_*` actions) the `MenuOption` metadata fallback. -/
def getMenuOptionsForAction (rules : GameRules) (st : GameState) (a : Action)
    (p : Player) : Option (List String) :=
  match a.input_request with
  | some (.menuInput req) =>
    match rules.optionsMethod req.options with
    | some f => f p st
    | none =>
      if pyStartsWith a.id "set_" then rules.optionFallback a p st else none
  | _ => none

/-- `_get_bot_input`: automatic input for a bot player. -/
def getBotInput (rules : GameRules) (st : GameState) (a : Action) (p : Player) :
    Option String :=
  match a.input_request with
  | some (.menuInput req) =>
    match getMenuOptionsForAction rules st a p with
    | none => none
    | some [] => none
    | some (o :: os) =>
      match req.bot_select with
      | some nm =>
        match rules.botSelectMethod nm with
        | some f => f p (o :: os) st
        | none => some o
      | none => some o
  | some (.editboxInput req) =>
    match req.bot_input with
    | some nm =>
      match rules.botInputMethod nm with
      | some f => f p st
      | none => some req.default
    | none => some req.default
  | none => none

/-- `_request_action_input`: suspend a human player on an input request.
Menu-item display labels are localisation concerns (spec §6); the trace
records the item ids, which is what selection events carry back. -/
def requestActionInput (rules : GameRules) (st : GameState) (a : Action)
    (p : Player) : GameState × List Effect :=
  if userAttached st p then
    let st1 := { st with pending_actions := insertA p.id a.id st.pending_actions }
    match a.input_request with
    | some (.menuInput _) =>
      match getMenuOptionsForAction rules st1 a p with
      | none =>
        ({ st1 with pending_actions := eraseA p.id st1.pending_actions },
         [.spoke p.id "no-options-available"])
      | some [] =>
        ({ st1 with pending_actions := eraseA p.id st1.pending_actions },
         [.spoke p.id "no-options-available"])
      | some opts =>
        (st1, [.showMenu p.id "action_input_menu" (opts ++ ["_cancel"])])
    | some (.editboxInput req) =>
      (st1, [.showEditbox p.id "action_input_editbox" req.prompt req.default])
    | none => (st1, [])
  else (st, [])

/-- The handler-dispatch tail of `execute_action`: look up the handler,
store the context, call with or without the input value, and pop the
context in a `finally` (so also when the handler raises). -/
def invokeHandler (rules : GameRules) (st : GameState) (p : Player) (a : Action)
    (actionId : String) (inputValue : Option String)
    (context : Option ActionContext) : EngineResult :=
  match rules.handlers a.handler with
  | none => ⟨st, [], none⟩
  | some h =>
    let ctx := context.getD ActionContext.empty
    let st1 := { st with action_context := insertA p.id ctx st.action_context }
    let arg := if a.input_request.isSome && inputValue.isSome then inputValue else none
    let hr := h p arg actionId st1
    let st2 := { hr.1 with action_context := eraseA p.id hr.1.action_context }
    ⟨st2, [.handlerInvoked p.id actionId arg], hr.2⟩

/-- `execute_action` (`base.py` lines 454-511). -/
def executeAction (rules : GameRules) (st : GameState) (p : Player)
    (actionId : String) (inputValue : Option String)
    (context : Option ActionContext) : EngineResult :=
  match findAction st p actionId with
  | none => ⟨st, [], none⟩
  | some a =>
    let resolved := resolveAction rules st p a
    if resolved.enabled then
      if a.input_request.isSome && inputValue.isNone then
        if p.is_bot then
          let st1 := { st with pending_actions := insertA p.id actionId st.pending_actions }
          let iv := getBotInput rules st1 a p
          let st2 := { st1 with pending_actions := eraseA p.id st1.pending_actions }
          match iv with
          | none => ⟨st2, [], none⟩
          | some v => invokeHandler rules st2 p a actionId (some v) context
        else
          let r := requestActionInput rules st a p
          ⟨r.1, r.2, none⟩
      else invokeHandler rules st p a actionId inputValue context
    else
      match resolved.disabled_reason with
      | some reason => ⟨st, speakIfUser st p reason, none⟩
      | none => ⟨st, [], none⟩

/-- Modelled from the spec: `Keybind.can_player_use` (in the missing
`ui.keybinds` module): skip unless the applicability state matches the
game phase, the player is allowed (empty allow-list = all), and
spectators are allowed when the player is one. -/
def canPlayerUse (st : GameState) (kb : Keybind) (p : Player) (isSpec : Bool) : Bool :=
  (match kb.state with
   | .never => false
   | .always => true
   | .idle => st.status == "waiting"
   | .active => st.status == "playing")
  && (kb.players.isEmpty || kb.players.contains p.name)
  && (!isSpec || kb.include_spectators)

/-- Modelled from the spec: `ActionSet.get_visible_actions` (spec §4.1)
resolves the set's actions in order and keeps the visible ones. -/
def setVisibleActions (rules : GameRules) (st : GameState) (p : Player)
    (s : ActionSet) : List ResolvedAction :=
  (s.actions.map (fun a => rules.resolveInSet s p a st)).filter (fun r => r.visible)

/-- `get_all_visible_actions`. -/
def getAllVisibleActions (rules : GameRules) (st : GameState) (p : Player) :
    List ResolvedAction :=
  (getActionSets st p).flatMap (setVisibleActions rules st p)

/-- Key canonicalisation in the keybind branch of `handle_event`:
lowercase, then prepend `shift+`, `ctrl+`, `alt+` in that order, each
only when the flag is set and the prefix is not already present. -/
def canonicalKey (key : String) (shift ctrl alt : Bool) : String :=
  let k0 := pyLower key
  let k1 := if shift && !(pyStartsWith k0 "shift+") then "shift+" ++ k0 else k0
  let k2 := if ctrl && !(pyStartsWith k1 "ctrl+") then "ctrl+" ++ k1 else k1
  if alt && !(pyStartsWith k2 "alt+") then "alt+" ++ k2 else k2

/-- Accumulator threaded through the keybind loops of `handle_event`:
current state, effect trace, the `executed_any` flag, and the raised
error (a raise unwinds out of the loops). -/
structure KbAcc where
  st : GameState
  effs : List Effect
  executedAny : Bool
  err : Option String
deriving Repr, DecidableEq

/-- One `action_id` step of the inner keybind loop (lines 741-752): if
the action exists and resolves enabled, execute it with the keybind
context and set `executed_any`; if disabled with a reason, speak it. -/
def kbActionStep (rules : GameRules) (p : Player) (ctx : ActionContext)
    (acc : KbAcc) (actionId : String) : KbAcc :=
  if acc.err.isSome then acc
  else
    match findAction acc.st p actionId with
    | none => acc
    | some a =>
      let resolved := resolveAction rules acc.st p a
      if resolved.enabled then
        let e := executeAction rules acc.st p actionId none (some ctx)
        ⟨e.st, acc.effs ++ e.effs, true, e.err⟩
      else
        match resolved.disabled_reason with
        | some reason => { acc with effs := acc.effs ++ speakIfUser acc.st p reason }
        | none => acc

/-- One keybind of the outer loop (lines 731-752): applicability and
focus filtering, then the inner loop over its action ids. -/
def kbKeybindStep (rules : GameRules) (p : Player) (ctx : ActionContext)
    (isSpec : Bool) (menuItemId : Option String) (acc : KbAcc) (kb : Keybind) :
    KbAcc :=
  if acc.err.isSome then acc
  else if !(canPlayerUse acc.st kb p isSpec) then acc
  else if kb.requires_focus &&
      !(match menuItemId with
        | some m => kb.actions.contains m
        | none => false) then acc
  else kb.actions.foldl (kbActionStep rules p ctx) acc

/-- The keybind branch of `handle_event` (lines 701-761). -/
def handleKeybind (rules : GameRules) (st : GameState) (p : Player) (key : String)
    (shift ctrl alt : Bool) (menuItemId : Option String)
    (menuIndex : Option Int) : EngineResult :=
  let k := canonicalKey key shift ctrl alt
  match lookupA k st.keybinds with
  | none => ⟨st, [], none⟩
  | some kbs =>
    let isSpec := p.is_spectator
    let ctx : ActionContext := ⟨menuItemId, menuIndex, true⟩
    let acc := kbs.foldl (kbKeybindStep rules p ctx isSpec menuItemId) ⟨st, [], false, none⟩
    if acc.err.isSome then ⟨acc.st, acc.effs, acc.err⟩
    else if acc.executedAny
        && (lookupA p.id acc.st.pending_actions).isNone
        && !(acc.st.status_box_open.contains p.id)
        && !(acc.st.actions_menu_open.contains p.id) then
      ⟨acc.st, acc.effs ++ [.rebuildAllMenus], none⟩
    else ⟨acc.st, acc.effs, none⟩

/-- `_handle_actions_menu_selection` (lines 763-778). -/
def handleActionsMenuSelection (rules : GameRules) (st : GameState) (p : Player)
    (actionId : String) : EngineResult :=
  let st1 := { st with actions_menu_open := st.actions_menu_open.filter (fun x => x ≠ p.id) }
  if actionId = "go_back" then ⟨st1, [.rebuildPlayerMenu p.id], none⟩
  else
    let e :=
      match findAction st1 p actionId with
      | some a =>
        if (resolveAction rules st1 p a).enabled then
          executeAction rules st1 p actionId none none
        else ⟨st1, [], none⟩
      | none => ⟨st1, [], none⟩
    if e.err.isSome then e
    else if (lookupA p.id e.st.pending_actions).isNone then
      ⟨e.st, e.effs ++ [.rebuildPlayerMenu p.id], none⟩
    else e

/-- The `turn_menu` branch of `handle_event` (lines 633-656). -/
def handleTurnMenu (rules : GameRules) (st : GameState) (p : Player)
    (selectionId : String) (selection : Int) : EngineResult :=
  let st1 := { st with actions_menu_open := st.actions_menu_open.filter (fun x => x ≠ p.id) }
  let actionOpt := if selectionId ≠ "" then findAction st1 p selectionId else none
  match actionOpt with
  | some a =>
    if (resolveAction rules st1 p a).enabled then
      let e := executeAction rules st1 p selectionId none none
      if e.err.isSome then e
      else if (lookupA p.id e.st.pending_actions).isNone then
        ⟨e.st, e.effs ++ [.rebuildAllMenus], none⟩
      else e
    else ⟨st1, [], none⟩
  | none =>
    let sel0 := selection - 1
    let visible := getAllVisibleActions rules st1 p
    if 0 ≤ sel0 && sel0 < (visible.length : Int) then
      match visible.get? sel0.toNat with
      | some rv =>
        let e := executeAction rules st1 p rv.action.id none none
        if e.err.isSome then e
        else if (lookupA p.id e.st.pending_actions).isNone then
          ⟨e.st, e.effs ++ [.rebuildAllMenus], none⟩
        else e
      | none => ⟨st1, [], none⟩
    else ⟨st1, [], none⟩

/-- The `action_input_menu` branch of `handle_event` (lines 680-687):
consume the pending action; the `_cancel` sentinel drops it, any other
selection executes with the selection as input; always rebuild. -/
def handleActionInputMenu (rules : GameRules) (st : GameState) (p : Player)
    (selectionId : String) : EngineResult :=
  match lookupA p.id st.pending_actions with
  | some actionId =>
    let st1 := { st with pending_actions := eraseA p.id st.pending_actions }
    if selectionId ≠ "_cancel" then
      let e := executeAction rules st1 p actionId (some selectionId) none
      if e.err.isSome then e
      else ⟨e.st, e.effs ++ [.rebuildPlayerMenu p.id], none⟩
    else ⟨st1, [.rebuildPlayerMenu p.id], none⟩
  | none => ⟨st, [.rebuildPlayerMenu p.id], none⟩

/-- The editbox branch of `handle_event` (lines 689-699): consume the
pending action; empty text cancels; always rebuild. -/
def handleEditbox (rules : GameRules) (st : GameState) (p : Player)
    (inputId text : String) : EngineResult :=
  if inputId = "action_input_editbox" then
    match lookupA p.id st.pending_actions with
    | some actionId =>
      let st1 := { st with pending_actions := eraseA p.id st.pending_actions }
      if text ≠ "" then
        let e := executeAction rules st1 p actionId (some text) none
        if e.err.isSome then e
        else ⟨e.st, e.effs ++ [.rebuildPlayerMenu p.id], none⟩
      else ⟨st1, [.rebuildPlayerMenu p.id], none⟩
    | none => ⟨st, [.rebuildPlayerMenu p.id], none⟩
  else ⟨st, [], none⟩

/-- Raw incoming events (spec §6 event shapes). -/
inductive Event
  | menu (menu_id selection_id : String) (selection : Int)
  | editbox (input_id text : String)
  | keybind (key : String) (shift control alt : Bool)
      (menu_item_id : Option String) (menu_index : Option Int)
deriving Repr, DecidableEq

/-- `handle_event` (lines 625-761). -/
def handleEvent (rules : GameRules) (st : GameState) (p : Player) :
    Event → EngineResult
  | .menu menuId selectionId selection =>
    if menuId = "turn_menu" then handleTurnMenu rules st p selectionId selection
    else if menuId = "actions_menu" then
      if selectionId ≠ "" then handleActionsMenuSelection rules st p selectionId
      else ⟨st, [], none⟩
    else if menuId = "status_box" then
      if userAttached st p then
        ⟨{ st with status_box_open := st.status_box_open.filter (fun x => x ≠ p.id) },
         [.removeMenu p.id "status_box", .spoke p.id "status-box-closed",
          .rebuildPlayerMenu p.id], none⟩
      else ⟨st, [], none⟩
    else if menuId = "game_over" then
      executeAction rules st p "leave_game" none none
    else if menuId = "action_input_menu" then
      handleActionInputMenu rules st p selectionId
    else ⟨st, [], none⟩
  | .editbox inputId text => handleEditbox rules st p inputId text
  | .keybind key shift ctrl alt menuItemId menuIndex =>
    handleKeybind rules st p key shift ctrl alt menuItemId menuIndex

namespace Yahtzee

/-- Modelled from the spec: the Yahtzee dice state (`player.dice` in
`yahtzee/bot.py`; the `DiceSet` class is not among the provided
sources): 5 die values, the has-rolled flag, and per-die held flags
(`is_kept(i)`). -/
structure YDice where
  values : List Nat
  has_rolled : Bool := false
  kept : List Bool := []
deriving Repr, DecidableEq

/-- Modelled from the spec: the Yahtzee player fields `bot.py` reads
(`YahtzeePlayer` itself is not among the provided sources):
`get_open_categories()` and `get_upper_total()` are represented as the
data they return. -/
structure YPlayer where
  id : String
  dice : YDice
  rolls_left : Nat := 0
  scores : List (String × Nat) := []
  open_categories : List String := []
  upper_total : Nat := 0
  upper_bonus_awarded : Bool := false
deriving Repr, DecidableEq

/-- Modelled from the spec: `count_dice` (missing `game_utils.dice`)
counts occurrences of one face value. -/
def countVal (values : List Nat) (v : Nat) : Nat := values.count v

/-- Python `max(counts.items(), key=lambda item: (item[1], item[0]))`:
the die value maximising `(count, value)` lexicographically.  The key is
injective on distinct values, so the maximum is order-independent. -/
def bestValue (values : List Nat) : Nat :=
  values.foldl
    (fun acc v =>
      if countVal values v > countVal values acc ∨
          (countVal values v = countVal values acc ∧ v > acc) then v else acc)
    (values.headD 0)

/-- `_upper_target_value`.  The Python dict lookup is only reached with
upper-category keys; other keys map to 0 here. -/
def upperTargetValue : String → Nat
  | "ones" => 1
  | "twos" => 2
  | "threes" => 3
  | "fours" => 4
  | "fives" => 5
  | "sixes" => 6
  | _ => 0

/-- Loop of `_longest_consecutive_run`. -/
def longestRunGo : List Nat → Nat → Nat → Nat → Nat
  | [], _, _, best => best
  | v :: rest, prev, current, best =>
    if v = prev + 1 then
      longestRunGo rest v (current + 1) (max best (current + 1))
    else longestRunGo rest v 1 best

/-- `_longest_consecutive_run`. -/
def longestConsecutiveRun (values : List Nat) : Nat :=
  match values with
  | [] => 0
  | v :: rest => longestRunGo rest v 1 1

/-- Loop of `_best_straight_run`: returns `(best_start, best_len)`. -/
def straightGo : List Nat → Nat → Nat → Nat → Nat → Nat → Nat × Nat
  | [], _, bs, bl, s, l => if l > bl then (s, l) else (bs, bl)
  | v :: rest, prev, bs, bl, s, l =>
    if v = prev + 1 then straightGo rest v bs bl s (l + 1)
    else if l > bl then straightGo rest v s l v 1
    else straightGo rest v bs bl v 1

/-- `_best_straight_run`: the values of the longest consecutive run. -/
def bestStraightRun (uniqueValues : List Nat) : List Nat :=
  match uniqueValues with
  | [] => []
  | v :: rest =>
    let p := straightGo rest v v 1 v 1
    (List.range p.2).map (fun i => p.1 + i)

/-- Ascending insertion used to model Python `sorted`. -/
def insertSorted (v : Nat) : List Nat → List Nat
  | [] => [v]
  | x :: xs => if v ≤ x then v :: x :: xs else x :: insertSorted v xs

def sortNat (l : List Nat) : List Nat := l.foldr insertSorted []

/-- Python `sorted(set(values))`. -/
def sortedUnique (l : List Nat) : List Nat := (sortNat l).eraseDups

/-- Python `max(range(5), key=lambda i: values[i])`: the first index
among 0..4 holding the maximal value. -/
def argmaxIndex (values : List Nat) : Nat :=
  (List.range 5).foldl
    (fun acc i => if values.getD i 0 > values.getD acc 0 then i else acc) 0

/-- Python `{i for i, v in enumerate(values) if pred v}` as an
ascending index list. -/
def indicesWhere (values : List Nat) (pred : Nat → Bool) : List Nat :=
  (List.range values.length).filter (fun i => pred (values.getD i 0))

/-- Upper categories list literal used in `bot.py`. -/
def upperCats : List String := ["ones", "twos", "threes", "fours", "fives", "sixes"]

/-- `_category_potential`.  Every float constant in the source is an
exact multiple of one hundredth, so the heuristic value is embedded as
an integer scaled by 100 (`0.35 → 35`, `1.5 → 150`, …); comparisons
between potentials are unchanged by this order-preserving rescaling. -/
def categoryPotential (values : List Nat) (category : String) (rolls_left : Nat)
    (yahtzee_bonus_eligible : Bool) : Int :=
  let bv := bestValue values
  let bc := countVal values bv
  let runLen := longestConsecutiveRun (sortedUnique values)
  let diceSum : Nat := values.foldl (fun a b => a + b) 0
  let rl : Int := rolls_left
  if category ∈ upperCats then
    let t := upperTargetValue category
    let matched := countVal values t
    100 * (matched * t : Int) + (5 - (matched : Int)) * t * 35 * rl
  else if category = "three_kind" then
    if bc ≥ 3 then 100 * (diceSum : Int) + (5 - (bc : Int)) * 100 * rl
    else 100 * (bc * bv : Int) + (max 0 (3 - (bc : Int))) * bv * 150 * rl
  else if category = "four_kind" then
    if bc ≥ 4 then 100 * (diceSum : Int) + (5 - (bc : Int)) * 100 * rl
    else 100 * (bc * bv : Int) + (max 0 (4 - (bc : Int))) * bv * 120 * rl
  else if category = "yahtzee" then
    let bonus : Int := if yahtzee_bonus_eligible then 100 else 0
    if bc = 5 then 5000 + 100 * bonus
    else if bc ≥ 3 then (bc : Int) * 800 + (5 - (bc : Int)) * 300 * rl + bonus * 10
    else (bc : Int) * 500 + rl * 200
  else if category = "full_house" then
    let shape := (sortNat ((values.eraseDups).map (countVal values))).reverse
    match shape with
    | a :: b :: _ =>
      if a ≥ 3 ∧ b ≥ 2 then 4500
      else if a ≥ 3 then 2800 + rl * 400
      else if a ≥ 2 ∧ b ≥ 2 then 2400 + rl * 300
      else 1000 + rl * 200
    | _ => 1000 + rl * 200
  else if category = "small_straight" then
    if runLen ≥ 4 then 3500 else (runLen : Int) * 700 + rl * 400
  else if category = "large_straight" then
    if runLen ≥ 5 then 4800 else (runLen : Int) * 600 + rl * 300
  else if category = "chance" then
    let lowDice := (values.filter (fun v => v < 4)).length
    100 * (diceSum : Int) + (lowDice : Int) * 150 * rl
  else 0

/-- `_pick_target_category`: fold with `best_value = -1.0` start (scaled
to `-100`). -/
def pickTargetCategory (values : List Nat) (open_categories : List String)
    (rolls_left : Nat) (yahtzee_bonus_eligible : Bool) : String :=
  match open_categories with
  | [] => ""
  | c0 :: _ =>
    (open_categories.foldl
      (fun (acc : String × Int) cat =>
        let v := categoryPotential values cat rolls_left yahtzee_bonus_eligible
        if v > acc.2 then (cat, v) else acc)
      (c0, -100)).1

/-- Descending insertion by the key `(count, value)`; used to model the
`full_house` branch's `sorted(..., key=lambda v: (counts[v], v),
reverse=True)` (keys are injective on distinct values). -/
def insertByCountDesc (count : Nat → Nat) (v : Nat) : List Nat → List Nat
  | [] => [v]
  | x :: xs =>
    if count v > count x ∨ (count v = count x ∧ v > x) then v :: x :: xs
    else x :: insertByCountDesc count v xs

def sortByCountDesc (count : Nat → Nat) (l : List Nat) : List Nat :=
  l.foldr (insertByCountDesc count) []

/-- Loop of the straight branch of `_desired_keep_indices`: keep the
first die index per distinct run value. -/
def straightKeepGo (values run : List Nat) : Nat → List Nat → List Nat → List Nat
  | _, [], _ => []
  | i, v :: rest, used =>
    if run.contains v && !(used.contains v) then
      i :: straightKeepGo values run (i + 1) rest (v :: used)
    else straightKeepGo values run (i + 1) rest used

/-- `_desired_keep_indices`. -/
def desiredKeepIndices (values : List Nat) (category : String) : List Nat :=
  let fallback := [argmaxIndex values]
  if category ∈ upperCats then
    let t := upperTargetValue category
    let keep := indicesWhere values (fun v => v = t)
    if keep = [] then fallback else keep
  else if category ∈ ["three_kind", "four_kind", "yahtzee"] then
    let bv := bestValue values
    let keep := indicesWhere values (fun v => v = bv)
    if keep = [] then fallback else keep
  else if category = "full_house" then
    let topValues := (sortByCountDesc (countVal values) values.eraseDups).take 2
    let keep := indicesWhere values (fun v => topValues.contains v)
    if keep = [] then fallback else keep
  else if category = "small_straight" ∨ category = "large_straight" then
    let run := bestStraightRun (sortedUnique values)
    let keep := straightKeepGo values run 0 values []
    if keep = [] then fallback else keep
  else if category = "chance" then
    let keep := indicesWhere values (fun v => v ≥ 4)
    if keep = [] then fallback else keep
  else fallback

/-- Modelled from the spec: `has_n_of_a_kind(counts, n)` (missing
`game_utils.dice`): some face occurs at least `n` times. -/
def hasNOfAKind (values : List Nat) (n : Nat) : Bool :=
  values.any (fun v => values.count v ≥ n)

/-- `_pick_best_category_action`.  `calculateScore` is the
`calculate_score` callable parameter of the source; utilities use the
same hundredth scaling as `categoryPotential` (`0.2 → 20`,
`-1.0 → -100`). -/
def pickBestCategoryAction (p : YPlayer)
    (calculateScore : List Nat → String → Int)
    (all_categories upper_categories : List String) : String :=
  let score := fun cat => calculateScore p.dice.values cat
  let ybActive := hasNOfAKind p.dice.values 5 && (lookupA "yahtzee" p.scores == some 50)
  let upperBefore := p.upper_total
  let best := p.open_categories.foldl
    (fun (acc : Option String × Int) cat =>
      let s := score cat
      let u0 : Int := 100 * s
      let u1 := if ybActive then u0 + 10000 else u0
      let u2 :=
        if cat ∈ upper_categories then
          let beforeGap : Int := max 0 (63 - (upperBefore : Int))
          let afterGap : Int := max 0 (63 - ((upperBefore : Int) + s))
          let ua := if beforeGap > 0 then u1 + (beforeGap - afterGap) * 20 else u1
          if beforeGap > 0 ∧ afterGap = 0 then ua + 3500 else ua
        else u1
      if u2 > acc.2 then (some cat, u2) else acc)
    (none, -100)
  let wasteResult :=
    let upperBonusLost := !p.upper_bonus_awarded && upperBefore < 63
    let wasteOrder :=
      ["yahtzee", "large_straight", "small_straight", "full_house", "four_kind",
       "three_kind"] ++
      (if upperBonusLost then
        ["ones", "twos", "threes", "chance", "fours", "fives", "sixes"]
       else
        ["chance", "ones", "twos", "threes", "fours", "fives", "sixes"])
    match wasteOrder.find? (fun c => p.open_categories.contains c) with
    | some c => "score_" ++ c
    | none => "score_" ++ all_categories.headD ""
  match best.1 with
  | some bc => if score bc > 0 then "score_" ++ bc else wasteResult
  | none => wasteResult

/-- `bot_think` (`yahtzee/bot.py` lines 14-63).  `currentId` stands for
`game.current_player`'s identity (the bot acts only when it is the
current player). -/
def botThink (currentId : Option String) (p : YPlayer)
    (calculateScore : List Nat → String → Int)
    (all_categories upper_categories : List String) : Option String :=
  if currentId ≠ some p.id then none
  else if !p.dice.has_rolled then some "roll"
  else if p.open_categories = [] then none
  else
    let yb := lookupA "yahtzee" p.scores == some 50
    if p.rolls_left > 0 then
      let target := pickTargetCategory p.dice.values p.open_categories p.rolls_left yb
      let bv := bestValue p.dice.values
      let bc := countVal p.dice.values bv
      let desired :=
        if yb && bc ≥ 4 then indicesWhere p.dice.values (fun v => v = bv)
        else desiredKeepIndices p.dice.values target
      let current := (List.range 5).filter (fun i => p.dice.kept.getD i false)
      let toggle :=
        if desired ≠ current then
          (List.range 5).find? (fun i => desired.contains i != current.contains i)
        else none
      match toggle with
      | some i => some ("toggle_die_" ++ toString i)
      | none =>
        if p.rolls_left > 0 && desired.length < 5 then some "roll"
        else some (pickBestCategoryAction p calculateScore all_categories upper_categories)
    else some (pickBestCategoryAction p calculateScore all_categories upper_categories)

end Yahtzee

/-! ## Claim theorems -/

theorem getPlayerById_id (st : GameState) (pid : String) (q : Player)
    (h : getPlayerById st pid = some q) : q.id = pid := by
  have := List.find?_some h
  exact of_decide_eq_true this

/-- C3: the `current_player` getter returns the player whose id is
`turn_player_ids[turn_index mod len]` when the list is non-empty and no
player when it is empty; the setter updates `turn_index` only for a
player whose id is in `turn_player_ids` and is a complete no-op
otherwise. -/
theorem c3_current_player_getter_setter :
    (∀ st : GameState, st.turn_player_ids ≠ [] →
      currentPlayer st =
        getPlayerById st
          (st.turn_player_ids.getD
            ((st.turn_index % (st.turn_player_ids.length : Int)).toNat) ""))
    ∧ (∀ st : GameState, ∀ q : Player, currentPlayer st = some q →
        q.id = st.turn_player_ids.getD
          ((st.turn_index % (st.turn_player_ids.length : Int)).toNat) "")
    ∧ (∀ st : GameState, st.turn_player_ids = [] → currentPlayer st = none)
    ∧ (∀ st : GameState, ∀ p : Player, st.turn_player_ids.contains p.id = true →
        setCurrentPlayer st (some p) =
          { st with turn_index := (st.turn_player_ids.indexOf p.id : Int) })
    ∧ (∀ st : GameState, ∀ p : Player, st.turn_player_ids.contains p.id = false →
        setCurrentPlayer st (some p) = st)
    ∧ (∀ st : GameState, setCurrentPlayer st none = st) := by
  refine ⟨?_, ?_, ?_, ?_, ?_, ?_⟩
  · intro st h
    simp [currentPlayer, List.isEmpty_iff, h]
  · intro st q h
    by_cases he : st.turn_player_ids = []
    · simp [currentPlayer, List.isEmpty_iff, he] at h
    · rw [currentPlayer, if_neg (by simpa [List.isEmpty_iff] using he)] at h
      exact getPlayerById_id _ _ _ h
  · intro st h
    simp [currentPlayer, List.isEmpty_iff, h]
  · intro st p h
    have hm : p.id ∈ st.turn_player_ids := by simpa using h
    simp [setCurrentPlayer, hm]
  · intro st p h
    have hm : p.id ∉ st.turn_player_ids := by simpa using h
    simp [setCurrentPlayer, hm]
  · intro st
    rfl

/-- Concrete turn state for the C3 witness. -/
def c3State : GameState :=
  { turn_player_ids := ["a", "b"], turn_index := 3,
    players := [{ id := "b", name := "Bee" }] }

def c3Outsider : Player := { id := "c", name := "Cee" }

/-- C3 witness: a concrete two-player turn list. -/
theorem c3_current_player_witness :
    currentPlayer c3State = some { id := "b", name := "Bee" }
    ∧ setCurrentPlayer c3State (some c3Outsider) = c3State := by
  constructor
  · have h := (c3_current_player_getter_setter.1) c3State (by decide)
    rw [h]
    decide
  · exact (c3_current_player_getter_setter.2.2.2.2.1) c3State c3Outsider (by decide)

/-- C2: keys are canonicalised by prefixing `shift+`, `ctrl+`, `alt+`
in that fixed application order (only when not already present) and the
keybind lookup is exact-string on the canonical key: an event
`key=b, shift=true` is dispatched identically to a literal `shift+b`
event, and a plain `key=b` event matches nothing when no keybind is
registered under `"b"` itself. -/
theorem c2_keybind_canonicalization :
    canonicalKey "b" true false false = "shift+b"
    ∧ canonicalKey "b" false false false = "b"
    ∧ (∀ rules : GameRules, ∀ st : GameState, ∀ p : Player,
        ∀ mi : Option String, ∀ midx : Option Int,
        handleEvent rules st p (.keybind "b" true false false mi midx) =
          handleEvent rules st p (.keybind "shift+b" false false false mi midx))
    ∧ (∀ rules : GameRules, ∀ st : GameState, ∀ p : Player,
        ∀ mi : Option String, ∀ midx : Option Int,
        lookupA "b" st.keybinds = none →
        handleEvent rules st p (.keybind "b" false false false mi midx) =
          ⟨st, [], none⟩) := by
  refine ⟨by decide, by decide, ?_, ?_⟩
  · intro rules st p mi midx
    show handleKeybind rules st p "b" true false false mi midx =
      handleKeybind rules st p "shift+b" false false false mi midx
    have h1 : canonicalKey "b" true false false = "shift+b" := by decide
    have h2 : canonicalKey "shift+b" false false false = "shift+b" := by decide
    rw [handleKeybind, handleKeybind, h1, h2]
  · intro rules st p mi midx h
    show handleKeybind rules st p "b" false false false mi midx = ⟨st, [], none⟩
    have h0 : canonicalKey "b" false false false = "b" := by decide
    rw [handleKeybind, h0, h]

/-- C8: when a bot needs input, a menu-input whose bot-selection method
name does not resolve falls back to the first menu option, and a
free-text input whose bot-value method name does not resolve falls back
to the request's declared default; absence of the named method is not an
error. -/
theorem c8_bot_input_defaults :
    (∀ rules : GameRules, ∀ st : GameState, ∀ a : Action, ∀ p : Player,
      ∀ req : MenuInputReq, ∀ x : String, ∀ xs : List String,
      a.input_request = some (.menuInput req) →
      (req.bot_select = none ∨
        ∃ nm, req.bot_select = some nm ∧ rules.botSelectMethod nm = none) →
      getMenuOptionsForAction rules st a p = some (x :: xs) →
      getBotInput rules st a p = some x)
    ∧ (∀ rules : GameRules, ∀ st : GameState, ∀ a : Action, ∀ p : Player,
      ∀ req : EditboxInputReq,
      a.input_request = some (.editboxInput req) →
      (req.bot_input = none ∨
        ∃ nm, req.bot_input = some nm ∧ rules.botInputMethod nm = none) →
      getBotInput rules st a p = some req.default) := by
  constructor
  · intro rules st a p req x xs hreq hsel hopts
    rcases hsel with h | ⟨nm, hnm, hmiss⟩
    · simp [getBotInput, hreq, hopts, h]
    · simp [getBotInput, hreq, hopts, hnm, hmiss]
  · intro rules st a p req hreq hinp
    rcases hinp with h | ⟨nm, hnm, hmiss⟩
    · simp [getBotInput, hreq, h]
    · simp [getBotInput, hreq, hnm, hmiss]

/-- Rules used by concrete witnesses: one resolvable handler `h_ok`, a
default always-enabled resolution, one options provider `opts`, and no
bot-policy methods. -/
def demoHandler : HandlerFn := fun _ _ _ st => (st, none)

def demoRules : GameRules where
  handlers := fun nm => if nm = "h_ok" then some demoHandler else none
  resolveInSet := fun _ _ a _ => ⟨a, a.label, true, none, true⟩
  optionsMethod := fun nm =>
    if nm = "opts" then some (fun _ _ => some ["red", "blue"]) else none
  optionFallback := fun _ _ _ => none
  botSelectMethod := fun _ => none
  botInputMethod := fun _ => none

/-- Concrete bot player and actions for the C8 witness. -/
def demoBot : Player := { id := "b1", name := "Bot", is_bot := true }

def demoMenuReq : MenuInputReq := { options := "opts", bot_select := some "nope" }

def demoMenuAction : Action :=
  { id := "pick", label := "Pick", handler := "h_ok",
    input_request := some (.menuInput demoMenuReq) }

def demoEditReq : EditboxInputReq :=
  { prompt := "p", default := "dflt", bot_input := some "nope" }

def demoEditAction : Action :=
  { id := "type", label := "Type", handler := "h_ok",
    input_request := some (.editboxInput demoEditReq) }

/-- C8 witness: concrete menu and editbox requests with unresolvable
bot-policy names. -/
theorem c8_bot_input_defaults_witness :
    getBotInput demoRules {} demoMenuAction demoBot = some "red"
    ∧ getBotInput demoRules {} demoEditAction demoBot = some "dflt" := by
  constructor
  · exact c8_bot_input_defaults.1 demoRules {} demoMenuAction demoBot
      demoMenuReq "red" ["blue"] rfl (Or.inr ⟨"nope", rfl, rfl⟩) rfl
  · exact c8_bot_input_defaults.2 demoRules {} demoEditAction demoBot
      demoEditReq rfl (Or.inr ⟨"nope", rfl, rfl⟩)

/-- Concrete human player, inputless action and state shared by several
witnesses. -/
def human : Player := { id := "p1", name := "Alice" }

def plainAction : Action := { id := "go", label := "Go", handler := "h_ok" }

def plainState : GameState :=
  { players := [human],
    player_action_sets := [("p1", [⟨"turn", [plainAction]⟩])],
    users := ["p1"] }

/-- C2 witness: with no keybind registered at all, a `key=b, shift=true`
event dispatches identically to a literal `shift+b` event, and plain
`key=b` is a no-op. -/
theorem c2_keybind_canonicalization_witness :
    handleEvent demoRules {} human (.keybind "b" true false false none none) =
      handleEvent demoRules {} human (.keybind "shift+b" false false false none none)
    ∧ handleEvent demoRules {} human (.keybind "b" false false false none none) =
      ⟨{}, [], none⟩ := by
  constructor
  · exact c2_keybind_canonicalization.2.2.1 demoRules {} human none none
  · exact c2_keybind_canonicalization.2.2.2 demoRules {} human none none rfl

/-- C10: every `execute_action` call that reaches the handler removes
the per-player ActionContext again when the handler returns — the pop
sits in a `finally`, so this also covers a raising handler (the result
is stated for an arbitrary handler outcome) — and with no stored entry
`get_action_context` yields the default context. -/
theorem c10_action_context_cleared :
    (∀ rules : GameRules, ∀ st : GameState, ∀ p : Player, ∀ aid : String,
      ∀ a : Action, ∀ iv : Option String, ∀ ctx : Option ActionContext,
      ∀ h : HandlerFn,
      findAction st p aid = some a →
      (resolveAction rules st p a).enabled = true →
      rules.handlers a.handler = some h →
      (a.input_request = none ∨ iv.isSome = true ∨
        (p.is_bot = true ∧
          (getBotInput rules
            { st with pending_actions := insertA p.id aid st.pending_actions }
            a p).isSome = true)) →
      lookupA p.id (executeAction rules st p aid iv ctx).st.action_context = none)
    ∧ (∀ st : GameState, ∀ p : Player,
        lookupA p.id st.action_context = none →
        getActionContext st p = ActionContext.empty) := by
  constructor
  · intro rules st p aid a iv ctx h hfind hres hh hreach
    rcases hreach with hnone | hsome | ⟨hbot, hbi⟩
    · simp [executeAction, hfind, hres, hnone, invokeHandler, hh, lookupA_eraseA]
    · cases iv with
      | none => simp at hsome
      | some v =>
        simp [executeAction, hfind, hres, invokeHandler, hh, lookupA_eraseA]
    · cases hbi2 : getBotInput rules
          { st with pending_actions := insertA p.id aid st.pending_actions } a p with
      | none => rw [hbi2] at hbi; simp at hbi
      | some v =>
        cases hinp : a.input_request with
        | none =>
          simp [executeAction, hfind, hres, hinp, invokeHandler, hh, lookupA_eraseA]
        | some req =>
          cases iv with
          | some v2 =>
            simp [executeAction, hfind, hres, hinp, invokeHandler, hh, lookupA_eraseA]
          | none =>
            simp [executeAction, hfind, hres, hinp, hbot, hbi2, invokeHandler, hh,
              lookupA_eraseA]
  · intro st p h
    simp [getActionContext, h]

/-- C10 witness: a resolvable inputless action; after execution the
player has no stored context, and `get_action_context` is the default. -/
theorem c10_action_context_cleared_witness :
    lookupA "p1" (executeAction demoRules plainState human "go" none none).st.action_context = none
    ∧ getActionContext plainState human = ActionContext.empty := by
  constructor
  · exact c10_action_context_cleared.1 demoRules plainState human "go" plainAction
      none none demoHandler (by decide) (by decide) rfl (Or.inl rfl)
  · exact c10_action_context_cleared.2 plainState human rfl

/-- C9: a non-bot player executing a menu-input action whose options
provider yields `None` or an empty list is not left suspended: the
pending record made at the start of input gathering is removed again,
the player is told `no-options-available`, and no menu is shown and no
handler invoked (the trace is exactly the one spoken message). -/
theorem c9_no_options_not_suspended :
    ∀ rules : GameRules, ∀ st : GameState, ∀ p : Player, ∀ aid : String,
    ∀ a : Action, ∀ req : MenuInputReq,
    p.is_bot = false →
    findAction st p aid = some a →
    (resolveAction rules st p a).enabled = true →
    a.input_request = some (.menuInput req) →
    userAttached st p = true →
    (getMenuOptionsForAction rules
        { st with pending_actions := insertA p.id a.id st.pending_actions } a p = none ∨
      getMenuOptionsForAction rules
        { st with pending_actions := insertA p.id a.id st.pending_actions } a p = some []) →
    lookupA p.id (executeAction rules st p aid none none).st.pending_actions = none
    ∧ (executeAction rules st p aid none none).effs = [.spoke p.id "no-options-available"]
    ∧ (executeAction rules st p aid none none).err = none := by
  intro rules st p aid a req hbot hfind hres hreq huser hopts
  rcases hopts with h | h <;>
    refine ⟨?_, ?_, ?_⟩ <;>
    simp [executeAction, hfind, hres, hreq, hbot, requestActionInput, huser, h,
      lookupA_eraseA]

/-- Concrete state for the C9 witness and C4 counterexample: an enabled
menu-input action whose options provider exists but yields no options,
and whose handler name resolves to nothing. -/
def emptyOptsRules : GameRules where
  handlers := fun nm => if nm = "h_ok" then some demoHandler else none
  resolveInSet := fun _ _ a _ => ⟨a, a.label, true, none, true⟩
  optionsMethod := fun nm =>
    if nm = "no_opts" then some (fun _ _ => some []) else none
  optionFallback := fun _ _ _ => none
  botSelectMethod := fun _ => none
  botInputMethod := fun _ => none

def emptyMenuAction : Action :=
  { id := "ask", label := "Ask", handler := "h_ok",
    input_request := some (.menuInput { options := "no_opts" }) }

def emptyMenuState : GameState :=
  { players := [human],
    player_action_sets := [("p1", [⟨"turn", [emptyMenuAction]⟩])],
    users := ["p1"] }

/-- C9 witness: the empty-options provider case at a concrete state. -/
theorem c9_no_options_not_suspended_witness :
    lookupA "p1" (executeAction emptyOptsRules emptyMenuState human "ask" none none).st.pending_actions = none
    ∧ (executeAction emptyOptsRules emptyMenuState human "ask" none none).effs =
        [.spoke "p1" "no-options-available"] := by
  have h := c9_no_options_not_suspended emptyOptsRules emptyMenuState human "ask"
    emptyMenuAction { options := "no_opts" } rfl (by decide) (by decide) rfl
    (by decide) (Or.inr rfl)
  exact ⟨h.1, h.2.1⟩

/-- Rules with no resolvable handler at all but a working two-option
provider; used to exhibit the C4 counterexample. -/
def c4Rules : GameRules where
  handlers := fun _ => none
  resolveInSet := fun _ _ a _ => ⟨a, a.label, true, none, true⟩
  optionsMethod := fun nm =>
    if nm = "opts" then some (fun _ _ => some ["red", "blue"]) else none
  optionFallback := fun _ _ _ => none
  botSelectMethod := fun _ => none
  botInputMethod := fun _ => none

def c4Action : Action :=
  { id := "ask", label := "Ask", handler := "missing_handler",
    input_request := some (.menuInput { options := "opts" }) }

def c4State : GameState :=
  { players := [human],
    player_action_sets := [("p1", [⟨"turn", [c4Action]⟩])],
    users := ["p1"] }

/-- C4 counterexample: an enabled menu-input action whose handler name
does not resolve.  Calling `execute_action` with no input value is not a
no-op: input gathering runs first, so a pending action is recorded (and
a menu shown) even though the handler is missing, changing the game
state — refuting the claim that a non-resolving handler name always
leaves the state unchanged. -/
theorem c4_missing_handler_counterexample :
    c4Rules.handlers c4Action.handler = none
    ∧ (executeAction c4Rules c4State human "ask" none none).st.pending_actions ≠
        c4State.pending_actions := by
  exact ⟨rfl, by decide⟩

/-- C4 (amended): a non-resolving action id makes `execute_action` a
silent no-op, and a non-resolving handler name makes it a silent no-op
in every call that reaches handler dispatch (enabled, and either no
input request or an input value supplied); when an input request is
still unfilled, input gathering runs before the handler lookup and may
record a pending action. -/
theorem c4_missing_reference_noop :
    (∀ rules : GameRules, ∀ st : GameState, ∀ p : Player, ∀ aid : String,
      ∀ iv : Option String, ∀ ctx : Option ActionContext,
      findAction st p aid = none →
      executeAction rules st p aid iv ctx = ⟨st, [], none⟩)
    ∧ (∀ rules : GameRules, ∀ st : GameState, ∀ p : Player, ∀ aid : String,
      ∀ a : Action, ∀ iv : Option String, ∀ ctx : Option ActionContext,
      findAction st p aid = some a →
      (resolveAction rules st p a).enabled = true →
      (a.input_request = none ∨ iv.isSome = true) →
      rules.handlers a.handler = none →
      executeAction rules st p aid iv ctx = ⟨st, [], none⟩) := by
  constructor
  · intro rules st p aid iv ctx h
    simp [executeAction, h]
  · intro rules st p aid a iv ctx hfind hres hreach hh
    rcases hreach with hnone | hsome
    · simp [executeAction, hfind, hres, hnone, invokeHandler, hh]
    · cases iv with
      | none => simp at hsome
      | some v => simp [executeAction, hfind, hres, invokeHandler, hh]

/-- C4 witness: a missing action id, and a missing handler on an
enabled inputless action, both at concrete states. -/
theorem c4_missing_reference_noop_witness :
    executeAction c4Rules c4State human "nonexistent" none none = ⟨c4State, [], none⟩
    ∧ executeAction c4Rules plainState human "go" none none = ⟨plainState, [], none⟩ := by
  constructor
  · exact c4_missing_reference_noop.1 c4Rules c4State human "nonexistent" none none
      (by decide)
  · exact c4_missing_reference_noop.2 c4Rules plainState human "go" plainAction
      none none (by decide) (by decide) (Or.inl rfl) rfl

/-- Effects produced by the disabled branch of `execute_action`: the
disabled reason is spoken when one is set and the player has a user. -/
def disabledEffs (rules : GameRules) (st : GameState) (p : Player) (a : Action) :
    List Effect :=
  match (resolveAction rules st p a).disabled_reason with
  | some reason => speakIfUser st p reason
  | none => []

/-- C5: dispatch never invokes a not-enabled action's handler: direct
`execute_action` returns with state unchanged, speaking the resolved
disabled reason when one is set and the player has an attached user,
and doing nothing else; one step of the keybind loop on a not-enabled
action likewise only appends that spoken reason, leaving the state,
`executed_any` flag and error untouched. -/
theorem c5_disabled_action_dispatch :
    (∀ rules : GameRules, ∀ st : GameState, ∀ p : Player, ∀ aid : String,
      ∀ a : Action, ∀ iv : Option String, ∀ ctx : Option ActionContext,
      findAction st p aid = some a →
      (resolveAction rules st p a).enabled = false →
      executeAction rules st p aid iv ctx = ⟨st, disabledEffs rules st p a, none⟩)
    ∧ (∀ rules : GameRules, ∀ p : Player, ∀ ctx : ActionContext, ∀ acc : KbAcc,
      ∀ aid : String, ∀ a : Action,
      acc.err = none →
      findAction acc.st p aid = some a →
      (resolveAction rules acc.st p a).enabled = false →
      kbActionStep rules p ctx acc aid =
        { acc with effs := acc.effs ++ disabledEffs rules acc.st p a }) := by
  constructor
  · intro rules st p aid a iv ctx hfind hres
    cases hr : (resolveAction rules st p a).disabled_reason with
    | none => simp [executeAction, hfind, hres, disabledEffs, hr]
    | some reason => simp [executeAction, hfind, hres, disabledEffs, hr]
  · intro rules p ctx acc aid a herr hfind hres
    have hs : acc.err.isSome = false := by simp [herr]
    cases hr : (resolveAction rules acc.st p a).disabled_reason with
    | none => simp [kbActionStep, hs, hfind, hres, disabledEffs, hr]
    | some reason => simp [kbActionStep, hs, hfind, hres, disabledEffs, hr]

/-- Rules whose resolution reports every action disabled with the
reason `not-now`. -/
def disabledRules : GameRules where
  handlers := fun nm => if nm = "h_ok" then some demoHandler else none
  resolveInSet := fun _ _ a _ => ⟨a, a.label, false, some "not-now", true⟩
  optionsMethod := fun _ => none
  optionFallback := fun _ _ _ => none
  botSelectMethod := fun _ => none
  botInputMethod := fun _ => none

/-- C5 witness: a disabled action with a configured reason at a state
with an attached user, through both dispatch paths. -/
theorem c5_disabled_action_dispatch_witness :
    executeAction disabledRules plainState human "go" none none =
      ⟨plainState, [.spoke "p1" "not-now"], none⟩
    ∧ kbActionStep disabledRules human ActionContext.empty
        ⟨plainState, [], false, none⟩ "go" =
      ⟨plainState, [.spoke "p1" "not-now"], false, none⟩ := by
  constructor
  · have h := c5_disabled_action_dispatch.1 disabledRules plainState human "go"
      plainAction none none (by decide) (by decide)
    rw [h]
    decide
  · have h := c5_disabled_action_dispatch.2 disabledRules human ActionContext.empty
      ⟨plainState, [], false, none⟩ "go" plainAction rfl (by decide) (by decide)
    rw [h]
    decide

theorem rebuild_not_mem_speakIfUser (st : GameState) (p : Player) (msg : String) :
    Effect.rebuildAllMenus ∉ speakIfUser st p msg := by
  unfold speakIfUser
  split <;> simp

theorem rebuild_not_mem_invokeHandler (rules : GameRules) (st : GameState)
    (p : Player) (a : Action) (aid : String) (iv : Option String)
    (ctx : Option ActionContext) :
    Effect.rebuildAllMenus ∉ (invokeHandler rules st p a aid iv ctx).effs := by
  unfold invokeHandler
  split <;> simp

theorem rebuild_not_mem_requestActionInput (rules : GameRules) (st : GameState)
    (a : Action) (p : Player) :
    Effect.rebuildAllMenus ∉ (requestActionInput rules st a p).2 := by
  unfold requestActionInput
  split
  · split
    · dsimp only
      split <;> simp
    · simp
    · simp
  · simp

theorem rebuild_not_mem_executeAction (rules : GameRules) (st : GameState)
    (p : Player) (aid : String) (iv : Option String) (ctx : Option ActionContext) :
    Effect.rebuildAllMenus ∉ (executeAction rules st p aid iv ctx).effs := by
  unfold executeAction
  split
  · simp
  · dsimp only
    split
    · split
      · split
        · split
          · simp
          · apply rebuild_not_mem_invokeHandler
        · exact rebuild_not_mem_requestActionInput _ _ _ _
      · apply rebuild_not_mem_invokeHandler
    · split
      · apply rebuild_not_mem_speakIfUser
      · simp

theorem rebuild_not_mem_kbActionStep (rules : GameRules) (p : Player)
    (ctx : ActionContext) (acc : KbAcc) (aid : String)
    (h : Effect.rebuildAllMenus ∉ acc.effs) :
    Effect.rebuildAllMenus ∉ (kbActionStep rules p ctx acc aid).effs := by
  unfold kbActionStep
  split
  · exact h
  · split
    · exact h
    · dsimp only
      split
      · simp only [List.mem_append, not_or]
        exact ⟨h, rebuild_not_mem_executeAction _ _ _ _ _ _⟩
      · split
        · simp only [List.mem_append, not_or]
          exact ⟨h, rebuild_not_mem_speakIfUser _ _ _⟩
        · exact h

theorem rebuild_not_mem_kbActionFold (rules : GameRules) (p : Player)
    (ctx : ActionContext) (aids : List String) (acc : KbAcc)
    (h : Effect.rebuildAllMenus ∉ acc.effs) :
    Effect.rebuildAllMenus ∉ (aids.foldl (kbActionStep rules p ctx) acc).effs := by
  induction aids generalizing acc with
  | nil => exact h
  | cons aid rest ih =>
    exact ih _ (rebuild_not_mem_kbActionStep rules p ctx acc aid h)

theorem rebuild_not_mem_kbKeybindStep (rules : GameRules) (p : Player)
    (ctx : ActionContext) (isSpec : Bool) (mi : Option String) (acc : KbAcc)
    (kb : Keybind) (h : Effect.rebuildAllMenus ∉ acc.effs) :
    Effect.rebuildAllMenus ∉ (kbKeybindStep rules p ctx isSpec mi acc kb).effs := by
  unfold kbKeybindStep
  split
  · exact h
  · split
    · exact h
    · split
      · exact h
      · exact rebuild_not_mem_kbActionFold _ _ _ _ _ h

theorem rebuild_not_mem_kbFold (rules : GameRules) (p : Player)
    (ctx : ActionContext) (isSpec : Bool) (mi : Option String)
    (kbs : List Keybind) (acc : KbAcc)
    (h : Effect.rebuildAllMenus ∉ acc.effs) :
    Effect.rebuildAllMenus ∉
      (kbs.foldl (kbKeybindStep rules p ctx isSpec mi) acc).effs := by
  induction kbs generalizing acc with
  | nil => exact h
  | cons kb rest ih =>
    exact ih _ (rebuild_not_mem_kbKeybindStep rules p ctx isSpec mi acc kb h)

/-- The keybind-loop accumulator computed by `handle_event` for a key
that resolved to `kbs`. -/
def kbFold (rules : GameRules) (st : GameState) (p : Player)
    (mi : Option String) (midx : Option Int) (kbs : List Keybind) : KbAcc :=
  kbs.foldl (kbKeybindStep rules p ⟨mi, midx, true⟩ p.is_spectator mi)
    ⟨st, [], false, none⟩

/-- C6: the keybind path rebuilds menus exactly when the loop finished
without a raise, at least one action was executed, the player has no
pending input, and neither the status box nor the actions menu is
recorded open for them; if any of these fails no rebuild is triggered
by the keybind path. -/
theorem c6_keybind_rebuild_condition :
    ∀ rules : GameRules, ∀ st : GameState, ∀ p : Player, ∀ key : String,
    ∀ shift ctrl alt : Bool, ∀ mi : Option String, ∀ midx : Option Int,
    ∀ kbs : List Keybind,
    lookupA (canonicalKey key shift ctrl alt) st.keybinds = some kbs →
    (Effect.rebuildAllMenus ∈ (handleKeybind rules st p key shift ctrl alt mi midx).effs ↔
      ((kbFold rules st p mi midx kbs).err = none
       ∧ (kbFold rules st p mi midx kbs).executedAny = true
       ∧ lookupA p.id (kbFold rules st p mi midx kbs).st.pending_actions = none
       ∧ (kbFold rules st p mi midx kbs).st.status_box_open.contains p.id = false
       ∧ (kbFold rules st p mi midx kbs).st.actions_menu_open.contains p.id = false)) := by
  intro rules st p key shift ctrl alt mi midx kbs hlk
  have hnr : Effect.rebuildAllMenus ∉ (kbFold rules st p mi midx kbs).effs :=
    rebuild_not_mem_kbFold _ _ _ _ _ _ _ (by simp)
  have he : handleKeybind rules st p key shift ctrl alt mi midx =
      (if (kbFold rules st p mi midx kbs).err.isSome then
        ⟨(kbFold rules st p mi midx kbs).st, (kbFold rules st p mi midx kbs).effs,
         (kbFold rules st p mi midx kbs).err⟩
      else if (kbFold rules st p mi midx kbs).executedAny
          && (lookupA p.id (kbFold rules st p mi midx kbs).st.pending_actions).isNone
          && !((kbFold rules st p mi midx kbs).st.status_box_open.contains p.id)
          && !((kbFold rules st p mi midx kbs).st.actions_menu_open.contains p.id) then
        ⟨(kbFold rules st p mi midx kbs).st,
         (kbFold rules st p mi midx kbs).effs ++ [.rebuildAllMenus], none⟩
      else
        ⟨(kbFold rules st p mi midx kbs).st, (kbFold rules st p mi midx kbs).effs,
         none⟩) := by
    rw [handleKeybind, hlk]
    rfl
  rw [he]
  cases herr : (kbFold rules st p mi midx kbs).err with
  | some e =>
    simp only [herr, Option.isSome_some, if_true]
    constructor
    · intro hm
      exact absurd hm hnr
    · rintro ⟨h1, -⟩
      cases h1
  | none =>
    simp only [herr, Option.isSome_none, Bool.false_eq_true, if_false]
    cases hcond : ((kbFold rules st p mi midx kbs).executedAny
        && (lookupA p.id (kbFold rules st p mi midx kbs).st.pending_actions).isNone
        && !((kbFold rules st p mi midx kbs).st.status_box_open.contains p.id)
        && !((kbFold rules st p mi midx kbs).st.actions_menu_open.contains p.id)) with
    | true =>
      simp only [hcond, if_true, List.mem_append, List.mem_singleton]
      simp only [Bool.and_eq_true, Bool.not_eq_true', Option.isNone_iff_eq_none] at hcond
      exact ⟨fun _ => ⟨trivial, hcond.1.1.1, hcond.1.1.2, hcond.1.2, hcond.2⟩,
        fun _ => Or.inr trivial⟩
    | false =>
      simp only [hcond, Bool.false_eq_true, if_false]
      constructor
      · intro hm
        exact absurd hm hnr
      · rintro ⟨-, h2, h3, h4, h5⟩
        rw [h2, h3, h4, h5] at hcond
        simp at hcond

theorem handleEvent_action_input_menu (rules : GameRules) (st : GameState)
    (p : Player) (sid : String) (sel : Int) :
    handleEvent rules st p (.menu "action_input_menu" sid sel) =
      handleActionInputMenu rules st p sid := by
  rfl

theorem handleEvent_action_editbox (rules : GameRules) (st : GameState)
    (p : Player) (text : String) :
    handleEvent rules st p (.editbox "action_input_editbox" text) =
      handleEditbox rules st p "action_input_editbox" text := by
  rfl

/-- Shared resume step: executing a pending action with a supplied input
value invokes its resolvable handler exactly once with that value and —
for a handler that does not itself touch the pending table — leaves the
pending table as it was before the call. -/
theorem resume_exec_spec (rules : GameRules) (st1 : GameState) (p : Player)
    (aid v : String) (a : Action) (h : HandlerFn)
    (hfind : findAction st1 p aid = some a)
    (hres : (resolveAction rules st1 p a).enabled = true)
    (hinp : a.input_request.isSome = true)
    (hh : rules.handlers a.handler = some h)
    (hpres : ∀ pl : Player, ∀ iv : Option String, ∀ aid2 : String, ∀ s : GameState,
      ((h pl iv aid2 s).1).pending_actions = s.pending_actions) :
    (executeAction rules st1 p aid (some v) none).effs =
      [.handlerInvoked p.id aid (some v)]
    ∧ (executeAction rules st1 p aid (some v) none).st.pending_actions =
      st1.pending_actions := by
  constructor
  · simp [executeAction, hfind, hres, hinp, invokeHandler, hh]
  · simp only [executeAction, hfind, hres, if_true, hinp, Option.isSome_some,
      Option.isNone_some, Bool.and_false, Bool.false_eq_true, if_false,
      invokeHandler, hh]
    rw [hpres]

/-- C1: for an enabled action with an input request and no supplied
value, `execute_action` on a non-bot player (with a user and, for menu
input, available options) records the pending action and does not
invoke the handler (the trace is only the shown menu/editbox); a later
pending-input menu selection other than `_cancel`, or non-empty editbox
text, invokes the handler exactly once with that value and removes the
pending record; the `_cancel` sentinel or empty text removes the
pending record without invoking anything. -/
theorem c1_pending_input_flow :
    (∀ rules : GameRules, ∀ st : GameState, ∀ p : Player, ∀ aid : String,
      ∀ a : Action, ∀ req : MenuInputReq, ∀ o : String, ∀ os : List String,
      p.is_bot = false →
      findAction st p aid = some a →
      (resolveAction rules st p a).enabled = true →
      a.input_request = some (.menuInput req) →
      userAttached st p = true →
      getMenuOptionsForAction rules
        { st with pending_actions := insertA p.id a.id st.pending_actions } a p =
        some (o :: os) →
      executeAction rules st p aid none none =
        ⟨{ st with pending_actions := insertA p.id a.id st.pending_actions },
         [.showMenu p.id "action_input_menu" ((o :: os) ++ ["_cancel"])], none⟩)
    ∧ (∀ rules : GameRules, ∀ st : GameState, ∀ p : Player, ∀ aid : String,
      ∀ a : Action, ∀ req : EditboxInputReq,
      p.is_bot = false →
      findAction st p aid = some a →
      (resolveAction rules st p a).enabled = true →
      a.input_request = some (.editboxInput req) →
      userAttached st p = true →
      executeAction rules st p aid none none =
        ⟨{ st with pending_actions := insertA p.id a.id st.pending_actions },
         [.showEditbox p.id "action_input_editbox" req.prompt req.default], none⟩)
    ∧ (∀ rules : GameRules, ∀ st : GameState, ∀ p : Player, ∀ aid sid : String,
      ∀ a : Action, ∀ h : HandlerFn,
      lookupA p.id st.pending_actions = some aid →
      sid ≠ "_cancel" →
      findAction { st with pending_actions := eraseA p.id st.pending_actions } p aid =
        some a →
      (resolveAction rules { st with pending_actions := eraseA p.id st.pending_actions }
        p a).enabled = true →
      a.input_request.isSome = true →
      rules.handlers a.handler = some h →
      (∀ pl : Player, ∀ iv : Option String, ∀ aid2 : String, ∀ s : GameState,
        ((h pl iv aid2 s).1).pending_actions = s.pending_actions) →
      (handleEvent rules st p (.menu "action_input_menu" sid 1)).effs.count
          (.handlerInvoked p.id aid (some sid)) = 1
      ∧ lookupA p.id
          (handleEvent rules st p (.menu "action_input_menu" sid 1)).st.pending_actions =
        none)
    ∧ (∀ rules : GameRules, ∀ st : GameState, ∀ p : Player, ∀ aid : String,
      lookupA p.id st.pending_actions = some aid →
      handleEvent rules st p (.menu "action_input_menu" "_cancel" 1) =
        ⟨{ st with pending_actions := eraseA p.id st.pending_actions },
         [.rebuildPlayerMenu p.id], none⟩)
    ∧ (∀ rules : GameRules, ∀ st : GameState, ∀ p : Player, ∀ aid text : String,
      ∀ a : Action, ∀ h : HandlerFn,
      lookupA p.id st.pending_actions = some aid →
      text ≠ "" →
      findAction { st with pending_actions := eraseA p.id st.pending_actions } p aid =
        some a →
      (resolveAction rules { st with pending_actions := eraseA p.id st.pending_actions }
        p a).enabled = true →
      a.input_request.isSome = true →
      rules.handlers a.handler = some h →
      (∀ pl : Player, ∀ iv : Option String, ∀ aid2 : String, ∀ s : GameState,
        ((h pl iv aid2 s).1).pending_actions = s.pending_actions) →
      (handleEvent rules st p (.editbox "action_input_editbox" text)).effs.count
          (.handlerInvoked p.id aid (some text)) = 1
      ∧ lookupA p.id
          (handleEvent rules st p (.editbox "action_input_editbox" text)).st.pending_actions =
        none)
    ∧ (∀ rules : GameRules, ∀ st : GameState, ∀ p : Player, ∀ aid : String,
      lookupA p.id st.pending_actions = some aid →
      handleEvent rules st p (.editbox "action_input_editbox" "") =
        ⟨{ st with pending_actions := eraseA p.id st.pending_actions },
         [.rebuildPlayerMenu p.id], none⟩) := by
  refine ⟨?_, ?_, ?_, ?_, ?_, ?_⟩
  · intro rules st p aid a req o os hbot hfind hres hreq huser hopts
    simp [executeAction, hfind, hres, hreq, hbot, requestActionInput, huser, hopts]
  · intro rules st p aid a req hbot hfind hres hreq huser
    simp [executeAction, hfind, hres, hreq, hbot, requestActionInput, huser]
  · intro rules st p aid sid a h hpend hsid hfind hres hinp hh hpres
    obtain ⟨he, hp2⟩ := resume_exec_spec rules
      { st with pending_actions := eraseA p.id st.pending_actions } p aid sid a h
      hfind hres hinp hh hpres
    rw [handleEvent_action_input_menu, handleActionInputMenu, hpend]
    dsimp only
    rw [if_pos hsid]
    by_cases herr : (executeAction rules
        { st with pending_actions := eraseA p.id st.pending_actions } p aid
        (some sid) none).err.isSome
    · rw [if_pos herr]
      refine ⟨by simp [he], ?_⟩
      rw [hp2]
      exact lookupA_eraseA _ _
    · rw [if_neg herr]
      refine ⟨by simp [he], ?_⟩
      show lookupA p.id (executeAction rules
        { st with pending_actions := eraseA p.id st.pending_actions } p aid
        (some sid) none).st.pending_actions = none
      rw [hp2]
      exact lookupA_eraseA _ _
  · intro rules st p aid hpend
    rw [handleEvent_action_input_menu, handleActionInputMenu, hpend]
    dsimp only
    rw [if_neg (by simp)]
  · intro rules st p aid text a h hpend htext hfind hres hinp hh hpres
    obtain ⟨he, hp2⟩ := resume_exec_spec rules
      { st with pending_actions := eraseA p.id st.pending_actions } p aid text a h
      hfind hres hinp hh hpres
    rw [handleEvent_action_editbox, handleEditbox]
    rw [if_pos rfl, hpend]
    dsimp only
    rw [if_pos htext]
    by_cases herr : (executeAction rules
        { st with pending_actions := eraseA p.id st.pending_actions } p aid
        (some text) none).err.isSome
    · rw [if_pos herr]
      refine ⟨by simp [he], ?_⟩
      rw [hp2]
      exact lookupA_eraseA _ _
    · rw [if_neg herr]
      refine ⟨by simp [he], ?_⟩
      show lookupA p.id (executeAction rules
        { st with pending_actions := eraseA p.id st.pending_actions } p aid
        (some text) none).st.pending_actions = none
      rw [hp2]
      exact lookupA_eraseA _ _
  · intro rules st p aid hpend
    rw [handleEvent_action_editbox, handleEditbox]
    rw [if_pos rfl, hpend]
    dsimp only
    rw [if_neg (by simp)]

/-- Concrete states for the C1 witness: a human player owning one
menu-input and one editbox-input action; variants with a pending action
already recorded. -/
def c1MenuState : GameState :=
  { players := [human],
    player_action_sets := [("p1", [⟨"turn", [demoMenuAction, demoEditAction]⟩])],
    users := ["p1"] }

def c1PendMenu : GameState :=
  { c1MenuState with pending_actions := [("p1", "pick")] }

def c1PendEdit : GameState :=
  { c1MenuState with pending_actions := [("p1", "type")] }

/-- C1 witness: suspension records the pending action and shows the
input ui without invoking anything; selection/text resumes exactly once
and clears the record; cancel and empty text clear it without
invoking. -/
theorem c1_pending_input_flow_witness :
    lookupA "p1" (executeAction demoRules c1MenuState human "pick" none none).st.pending_actions =
      some "pick"
    ∧ (executeAction demoRules c1MenuState human "pick" none none).effs =
        [.showMenu "p1" "action_input_menu" ["red", "blue", "_cancel"]]
    ∧ (executeAction demoRules c1MenuState human "type" none none).effs =
        [.showEditbox "p1" "action_input_editbox" "p" "dflt"]
    ∧ (handleEvent demoRules c1PendMenu human (.menu "action_input_menu" "red" 1)).effs.count
        (.handlerInvoked "p1" "pick" (some "red")) = 1
    ∧ lookupA "p1"
        (handleEvent demoRules c1PendMenu human (.menu "action_input_menu" "red" 1)).st.pending_actions =
      none
    ∧ handleEvent demoRules c1PendMenu human (.menu "action_input_menu" "_cancel" 1) =
        ⟨{ c1MenuState with pending_actions := [] }, [.rebuildPlayerMenu "p1"], none⟩
    ∧ (handleEvent demoRules c1PendEdit human (.editbox "action_input_editbox" "hello")).effs.count
        (.handlerInvoked "p1" "type" (some "hello")) = 1
    ∧ handleEvent demoRules c1PendEdit human (.editbox "action_input_editbox" "") =
        ⟨{ c1MenuState with pending_actions := [] }, [.rebuildPlayerMenu "p1"], none⟩ := by
  have hA := c1_pending_input_flow.1 demoRules c1MenuState human "pick" demoMenuAction
    demoMenuReq "red" ["blue"] rfl (by decide) (by decide) rfl rfl rfl
  have hB := c1_pending_input_flow.2.1 demoRules c1MenuState human "type" demoEditAction
    demoEditReq rfl (by decide) (by decide) rfl rfl
  have hC := c1_pending_input_flow.2.2.1 demoRules c1PendMenu human "pick" "red"
    demoMenuAction demoHandler rfl (by decide) (by decide) (by decide) rfl rfl
    (fun _ _ _ _ => rfl)
  have hD := c1_pending_input_flow.2.2.2.1 demoRules c1PendMenu human "pick" rfl
  have hE := c1_pending_input_flow.2.2.2.2.1 demoRules c1PendEdit human "type" "hello"
    demoEditAction demoHandler rfl (by decide) (by decide) (by decide) rfl rfl
    (fun _ _ _ _ => rfl)
  have hF := c1_pending_input_flow.2.2.2.2.2 demoRules c1PendEdit human "type" rfl
  refine ⟨?_, ?_, ?_, hC.1, hC.2, ?_, hE.1, ?_⟩
  · rw [hA]; decide
  · rw [hA]; decide
  · rw [hB]; decide
  · rw [hD]; decide
  · rw [hF]; decide

/-- Yahtzee bot scenario of C7: dice `[1,1,1,4,5]`, already rolled,
one roll left, only `three_kind` open; the held flags vary. -/
def c7Player (kept : List Bool) : Yahtzee.YPlayer :=
  { id := "bot",
    dice := { values := [1, 1, 1, 4, 5], has_rolled := true, kept := kept },
    rolls_left := 1,
    scores := [("yahtzee", 30)],
    open_categories := ["three_kind"] }

/-- The bot decision in the C7 scenario (`calculate_score` is never
consulted before keeps match, so a trivial scorer is supplied). -/
def c7Think (kept : List Bool) : Option String :=
  Yahtzee.botThink (some "bot") (c7Player kept) (fun _ _ => 0) [] []

/-- The currently-held index set, as `bot_think` computes it. -/
def c7Cur (kept : List Bool) : List Nat :=
  (List.range 5).filter (fun i => kept.getD i false)

/-- C7: in the worked scenario the desired keep set is exactly the
indices of the three 1s; while the held set differs from it the bot
returns a toggle for a die whose held flag disagrees with the desired
set (never a roll), and once they agree it returns a roll. -/
theorem c7_yahtzee_bot_keep_reconciliation :
    ∀ a b c d e : Bool,
    Yahtzee.desiredKeepIndices [1, 1, 1, 4, 5] "three_kind" = [0, 1, 2]
    ∧ (c7Cur [a, b, c, d, e] ≠ [0, 1, 2] →
        c7Think [a, b, c, d, e] ≠ some "roll"
        ∧ ∃ i ∈ List.range 5,
            c7Think [a, b, c, d, e] = some ("toggle_die_" ++ toString i)
            ∧ [a, b, c, d, e].getD i false ≠ [0, 1, 2].contains i)
    ∧ (c7Cur [a, b, c, d, e] = [0, 1, 2] → c7Think [a, b, c, d, e] = some "roll") := by
  decide

/-- C7 witness: concrete held sets on both sides of the reconciliation. -/
theorem c7_yahtzee_bot_keep_reconciliation_witness :
    c7Think [true, true, true, false, false] = some "roll"
    ∧ (c7Think [true, false, true, false, true] ≠ some "roll"
       ∧ ∃ i ∈ List.range 5,
           c7Think [true, false, true, false, true] = some ("toggle_die_" ++ toString i)
           ∧ [true, false, true, false, true].getD i false ≠ [0, 1, 2].contains i) := by
  constructor
  · exact (c7_yahtzee_bot_keep_reconciliation true true true false false).2.2 (by decide)
  · exact (c7_yahtzee_bot_keep_reconciliation true false true false true).2.1 (by decide)

/-- Keybind table for the C6 witness: the key `t` triggers the action
`go`. -/
def kbState : GameState :=
  { players := [human],
    player_action_sets := [("p1", [⟨"turn", [plainAction]⟩])],
    keybinds := [("t", [{ name := "Go", default_key := "t", actions := ["go"] }])],
    users := ["p1"] }

/-- C6 witness: after executing one enabled inputless action with no
pending input and no open status/actions menu, the keybind path
rebuilds the menus. -/
theorem c6_keybind_rebuild_condition_witness :
    Effect.rebuildAllMenus ∈
      (handleKeybind demoRules kbState human "t" false false false none none).effs := by
  exact (c6_keybind_rebuild_condition demoRules kbState human "t" false false false
    none none [{ name := "Go", default_key := "t", actions := ["go"] }]
    (by decide)).mpr (by decide)

end PlayPalace
